import Mathlib

/-!
Verification of the BrandAI workflow core: a shallow embedding in Lean 4 of the
scoring, ranking, critique fan-out, refinement decision policy and retry-budget
routing of the backend (`app/core/orchestrator.py`, `app/agents/critique_agent`,
`app/agents/refinement_agent`).  Scores are modelled as rationals (the Python
code uses floats; the thresholds and all concrete values used here are exact in
either arithmetic).  Python strings are modelled as `String`, Python `dict`s as
association lists, Python `None`-able values as `Option`, and a Python body
that may raise as an `Except` value.
-/

/- ----------------------------------------------------------------- -/
/- String helpers: Python `kw in text` and `str.lower()`             -/
/- ----------------------------------------------------------------- -/

/-- Python substring test `needle in hay`. -/
def strContains (hay needle : String) : Bool :=
  hay.toList.tails.any (fun t => needle.toList.isPrefixOf t)

/-- Python `str.lower()` (ASCII letters; every string compared in the
repository is ASCII). -/
def strLower (s : String) : String :=
  ⟨s.data.map Char.toLower⟩

/-- Python `dict.get(k, default)` on an association list. -/
def dictGet : List (String × ℚ) → String → ℚ → ℚ
  | [], _, d => d
  | p :: ps, k, d => if p.1 = k then p.2 else dictGet ps k d

/- ----------------------------------------------------------------- -/
/- Data model (app/models/response.py)                               -/
/- ----------------------------------------------------------------- -/

/-- `ScoreCard` (response.py).  `issues`/`suggestions` are always lists here
because `Scorer.create_scorecard` normalises `None` to `[]`. -/
structure ScoreCard where
  dimension : String
  score : ℚ
  feedback : String
  issues : List String
  suggestions : List String

/-- `VariationResult` (response.py).  The `generated_at`-style metadata is not
needed by any claim; all declared fields are kept. -/
structure VariationResult where
  variation_id : String
  file_path : String
  overall_score : ℚ
  scorecard : List ScoreCard
  passed : Bool
  rank : Option Nat

/-- `CritiqueReport` (response.py); the `generated_at` timestamp field is
outside the embedded fragment (no claim mentions it). -/
structure CritiqueReport where
  run_id : String
  total_variations : Nat
  passed_variations : Nat
  failed_variations : Nat
  best_variation : Option VariationResult
  all_variations : List VariationResult

/-- The critique-feedback dictionary handed to `RefinementAgent` is the dumped
`CritiqueReport`; the agent only ever reads the `all_variations` key. -/
structure CritiqueFeedback where
  all_variations : List VariationResult

/- ----------------------------------------------------------------- -/
/- Scorer (app/agents/critique_agent/scoring/scorer.py)              -/
/- ----------------------------------------------------------------- -/

/-- `Scorer.calculate_overall_score` (scorer.py lines 19-56), including the
default equal weights, the zero-sum re-normalisation branch and the final
clamp. -/
def calculate_overall_score (dimension_scores : List (String × ℚ))
    (weightsOpt : Option (List (String × ℚ))) : ℚ :=
  if dimension_scores = [] then 0
  else
    let n : ℚ := (dimension_scores.length : ℚ)
    let weights0 : List (String × ℚ) :=
      match weightsOpt with
      | none => dimension_scores.map (fun p => (p.1, 1 / n))
      | some ws => ws
    let total_weight0 : ℚ :=
      (dimension_scores.map (fun p => dictGet weights0 p.1 0)).sum
    let weights : List (String × ℚ) :=
      if total_weight0 = 0 then dimension_scores.map (fun p => (p.1, 1 / n))
      else weights0
    let total_weight : ℚ := if total_weight0 = 0 then n else total_weight0
    let weighted_sum : ℚ :=
      (dimension_scores.map (fun p => p.2 * dictGet weights p.1 (1 / n))).sum
    let overall_score : ℚ := if 0 < total_weight then weighted_sum / total_weight else 0
    max 0 (min 1 overall_score)

/-- `Scorer.determine_pass_fail` (scorer.py lines 114-142). -/
def determine_pass_fail (overall_score : ℚ) (dimension_scores : List (String × ℚ))
    (min_overall min_dimension : ℚ) : Bool :=
  if overall_score < min_overall then false
  else if dimension_scores.any (fun p => decide (p.2 < min_dimension)) then false
  else true

/- ----------------------------------------------------------------- -/
/- Ranker (app/agents/critique_agent/scoring/ranker.py)              -/
/- ----------------------------------------------------------------- -/

/-- One step of the stable descending sort performed by Python
`sorted(variation_results, key=lambda v: v.overall_score, reverse=True)`:
insert `v` before the first element whose score is `≤ v`'s, so an element
never jumps ahead of an earlier equal-scored one. -/
def insertDesc (v : VariationResult) : List VariationResult → List VariationResult
  | [] => [v]
  | w :: ws =>
      if w.overall_score ≤ v.overall_score then v :: w :: ws
      else w :: insertDesc v ws

/-- The stable descending sort by `overall_score` used in
`VariationRanker.rank_variations` (Python `sorted` with `reverse=True` is
documented stable; this insertion sort produces the identical output). -/
def sortDesc : List VariationResult → List VariationResult
  | [] => []
  | v :: vs => insertDesc v (sortDesc vs)

/-- `VariationRanker.rank_variations` (ranker.py lines 17-53) with the default
`ranking_strategy="overall"`: sort descending by `overall_score`, then assign
`rank = position + 1` as in Python `for i, variation in enumerate(ranked)`. -/
def rank_variations (variation_results : List VariationResult) : List VariationResult :=
  (sortDesc variation_results).enum.map (fun p => { p.2 with rank := some (p.1 + 1) })

/-- Forget the `rank` field (used to compare ranked output with raw input,
since rank assignment rewrites that field). -/
def clearRank (v : VariationResult) : VariationResult := { v with rank := none }

/- ----------------------------------------------------------------- -/
/- Critique agent fan-out (app/agents/critique_agent/agent.py)       -/
/- ----------------------------------------------------------------- -/

/-- An evaluator result dictionary (base_evaluator.py `create_result` output;
the optional `metadata` key is never read by the code under claim). -/
structure EvalResult where
  score : ℚ
  feedback : String
  issues : List String
  suggestions : List String

/-- `BaseEvaluator.create_result`: clamp the score and normalise missing
issue/suggestion lists. -/
def create_result (score : ℚ) (feedback : String)
    (issues suggestions : Option (List String)) : EvalResult :=
  { score := max 0 (min 1 score)
  , feedback := feedback
  , issues := issues.getD []
  , suggestions := suggestions.getD [] }

/-- The top-level `try/except` of each evaluator's `evaluate` method
(safety_evaluator.py lines 105-111, quality_evaluator.py lines 98-104,
brand_evaluator.py lines 106-112, clarity_evaluator.py lines 98-104): a body
that raises is converted to `create_result(score=0.0,
feedback=f"Error during {name} evaluation: {e}",
issues=[f"Evaluation error: {e}"])`. -/
def evaluatorResult (evaluatorName : String) (body : Except String EvalResult) : EvalResult :=
  match body with
  | Except.ok r => r
  | Except.error e =>
      create_result 0 ("Error during " ++ evaluatorName ++ " evaluation: " ++ e)
        (some ["Evaluation error: " ++ e]) none

/-- The four-evaluator fan-out of `CritiqueAgent.evaluate_variations`
(agent.py lines 137-169): every dimension gets an entry whatever each
evaluator body did. -/
def evaluateDimensions (brandBody qualityBody clarityBody safetyBody : Except String EvalResult) :
    List (String × EvalResult) :=
  [("brand_alignment", evaluatorResult "brand" brandBody),
   ("visual_quality", evaluatorResult "quality" qualityBody),
   ("message_clarity", evaluatorResult "clarity" clarityBody),
   ("safety_ethics", evaluatorResult "safety" safetyBody)]

/-- Report assembly of `CritiqueAgent.evaluate_variations` (agent.py lines
195-214): rank, pick the best as `ranked[0]`, count passed/failed. -/
def makeCritiqueReport (run_id : String) (variation_results : List VariationResult) :
    CritiqueReport :=
  let ranked := rank_variations variation_results
  { run_id := run_id
  , total_variations := variation_results.length
  , passed_variations := (variation_results.filter (fun v => v.passed)).length
  , failed_variations :=
      variation_results.length - (variation_results.filter (fun v => v.passed)).length
  , best_variation := ranked.head?
  , all_variations := ranked }

/- ----------------------------------------------------------------- -/
/- Refinement agent (app/agents/refinement_agent/agent.py)           -/
/- ----------------------------------------------------------------- -/

/-- `RefinementStrategy` enum (agent.py lines 15-20). -/
inductive RefinementStrategy where
  | enhance
  | regenerate
  | approve
  | reject
deriving DecidableEq

/-- `RefinementAgent._get_overall_score` (agent.py lines 146-151). -/
def get_overall_score (critique_feedback : CritiqueFeedback) : ℚ :=
  match critique_feedback.all_variations with
  | [] => 0
  | v :: _ => v.overall_score

/-- `RefinementAgent._has_critical_safety_issues` (agent.py lines 153-168). -/
def has_critical_safety_issues (critique_feedback : CritiqueFeedback) : Bool :=
  match critique_feedback.all_variations with
  | [] => false
  | v :: _ =>
      v.scorecard.any (fun d =>
        d.dimension = "safety_ethics" && decide (d.score < 3/10))

/-- Simple-issue keyword list of `_has_only_simple_issues` (agent.py line 183).
The source defines it but never consults it. -/
def simple_issue_keywords : List String :=
  ["blur", "noise", "artifact", "contrast", "brightness", "sharp"]

/-- Complex-issue keyword list of `_has_only_simple_issues` (agent.py line 184). -/
def complex_issue_keywords : List String :=
  ["brand", "logo", "color", "message", "product", "safety", "stereotype"]

/-- `RefinementAgent._has_only_simple_issues` (agent.py lines 170-203): a
dimension blocks `enhance` iff its score is `< 0.7` and a complex keyword
occurs in the lowercased dimension name, or in the lowercased feedback
concatenated with the (unlowered) issues.  The simple keyword list is unused
in the source. -/
def has_only_simple_issues (critique_feedback : CritiqueFeedback) : Bool :=
  match critique_feedback.all_variations with
  | [] => false
  | v :: _ =>
      v.scorecard.all (fun d =>
        let dim_name := strLower d.dimension
        let fb := strLower d.feedback
        let all_text := fb ++ " " ++ String.intercalate " " d.issues
        !((complex_issue_keywords.any (fun kw => strContains dim_name kw)
             && decide (d.score < 7/10))
          || (complex_issue_keywords.any (fun kw => strContains all_text kw)
             && decide (d.score < 7/10))))

/-- `RefinementAgent._determine_strategy` (agent.py lines 111-144). -/
def determine_strategy (critique_feedback : CritiqueFeedback) (media_type : String) :
    RefinementStrategy :=
  let overall_score := get_overall_score critique_feedback
  if has_critical_safety_issues critique_feedback then RefinementStrategy.reject
  else if overall_score < 3/10 then RefinementStrategy.reject
  else if 7/10 ≤ overall_score then RefinementStrategy.approve
  else if media_type = "image" && has_only_simple_issues critique_feedback then
    RefinementStrategy.enhance
  else RefinementStrategy.regenerate

/-- The per-dimension condition under which `_has_only_simple_issues` rules a
dimension out (complex keyword in the lowercased name, or in the lowercased
feedback joined with the issues). -/
def mentionsComplex (d : ScoreCard) : Bool :=
  complex_issue_keywords.any (fun kw => strContains (strLower d.dimension) kw)
  || complex_issue_keywords.any (fun kw =>
       strContains (strLower d.feedback ++ " " ++ String.intercalate " " d.issues) kw)

/- ----------------------------------------------------------------- -/
/- Orchestrator routing and retry budget (app/core/orchestrator.py)  -/
/- ----------------------------------------------------------------- -/

/-- The routing labels returned by `should_continue` (orchestrator.py line
350); `endRoute` stands for the Python string `"end"`. -/
inductive Route where
  | approve
  | regenerate
  | enhance
  | reject
  | endRoute
deriving DecidableEq

/-- The slice of `WorkflowState` (orchestrator.py lines 27-67) read and
written by `should_continue`, the retry-count update and the final-status
logic; the remaining fields (paths, prompts, flags) are never consulted by
those functions. -/
structure WorkflowState where
  refinement_strategy : Option String
  retry_count : Nat
  max_retries : Nat
  workflow_status : String
  error_message : Option String

/-- `should_continue` (orchestrator.py lines 350-384).  A missing or empty
strategy is falsy in Python and routes to `"end"`; an empty string also
reaches the final `else` here. -/
def should_continue (state : WorkflowState) : Route :=
  match state.refinement_strategy with
  | none => Route.endRoute
  | some strategy =>
      if strategy = "approve" then Route.approve
      else if strategy = "reject" then Route.reject
      else if strategy = "regenerate" then
        if state.max_retries ≤ state.retry_count then Route.endRoute
        else Route.regenerate
      else if strategy = "enhance" then Route.enhance
      else Route.endRoute

/-- The retry-count update of `WorkflowOrchestrator.execute` (orchestrator.py
lines 521-523): after the refinement node reports strategy `"regenerate"`,
`retry_count` is incremented by one. -/
def applyRegenerateIncrement (state : WorkflowState) : WorkflowState :=
  if state.refinement_strategy = some "regenerate" then
    { state with retry_count := state.retry_count + 1 }
  else state

/-- One regenerate cycle as driven by `WorkflowOrchestrator.execute`: the
refinement node sets strategy `"regenerate"`, then the stream loop increments
`retry_count` (orchestrator.py lines 521-523) before the router runs. -/
def regenCycle (state : WorkflowState) : WorkflowState :=
  applyRegenerateIncrement { state with refinement_strategy := some "regenerate" }

/-- The state after `n` regenerate cycles. -/
def afterRegenCycles (state : WorkflowState) : Nat → WorkflowState
  | 0 => state
  | n + 1 => regenCycle (afterRegenCycles state n)

/-- The final-status determination of `WorkflowOrchestrator.execute`
(orchestrator.py lines 537-544). -/
def finalizeStatus (state : WorkflowState) : WorkflowState :=
  if state.refinement_strategy = some "approve" then
    { state with workflow_status := "completed" }
  else if state.refinement_strategy = some "reject" then
    { state with workflow_status := "rejected" }
  else if state.max_retries ≤ state.retry_count then
    { state with workflow_status := "failed"
               , error_message := some "Maximum retries reached" }
  else state

/- ----------------------------------------------------------------- -/
/- Concrete inputs used by witnesses and counterexamples             -/
/- ----------------------------------------------------------------- -/

/-- A critique feedback whose variation list is empty. -/
def cfEmptyFeedback : CritiqueFeedback := { all_variations := [] }

/-- A high brand score card. -/
def scBrandHigh : ScoreCard :=
  { dimension := "brand_alignment", score := 1, feedback := "matches the palette"
  , issues := [], suggestions := [] }

/-- A critically low safety score card (score 0.2 < 0.3). -/
def scSafetyLow : ScoreCard :=
  { dimension := "safety_ethics", score := 1/5, feedback := "unsafe content depicted"
  , issues := ["harmful content"], suggestions := [] }

/-- A top-ranked variation with overall score 0.9 but safety score 0.2. -/
def varSafetyLow : VariationResult :=
  { variation_id := "var_1", file_path := "ads/ad_1.png", overall_score := 9/10
  , scorecard := [scBrandHigh, scSafetyLow], passed := false, rank := some 1 }

/-- Critique feedback whose top variation has a critical safety score. -/
def cfSafetyLow : CritiqueFeedback := { all_variations := [varSafetyLow] }

/-- A mid-band variation (overall 0.5) whose only flagged feedback text,
`"weird framing"`, matches neither the simple nor the complex keyword set. -/
def varNeitherKeyword : VariationResult :=
  { variation_id := "var_1", file_path := "ads/ad_1.png", overall_score := 1/2
  , scorecard := [ { dimension := "visual_quality", score := 1/2
                   , feedback := "weird framing", issues := [], suggestions := [] } ]
  , passed := false, rank := some 1 }

/-- Critique feedback around `varNeitherKeyword`. -/
def cfNeitherKeyword : CritiqueFeedback := { all_variations := [varNeitherKeyword] }

/-- A successful evaluator payload. -/
def evalOk : EvalResult :=
  { score := 4/5, feedback := "looks fine", issues := [], suggestions := [] }

/-- A passing variation used to instantiate the critique-report invariant. -/
def varPassed : VariationResult :=
  { variation_id := "var_1", file_path := "ads/ad_1.png", overall_score := 1
  , scorecard := [], passed := true, rank := none }

/-- The initial workflow state built by `WorkflowOrchestrator.execute`
(orchestrator.py lines 470-496): `retry_count = 0`, `max_retries = 3`. -/
def stInit : WorkflowState :=
  { refinement_strategy := none, retry_count := 0, max_retries := 3
  , workflow_status := "in_progress", error_message := none }

/- ----------------------------------------------------------------- -/
/- Theorems                                                          -/
/- ----------------------------------------------------------------- -/

/-- C2: if the top-ranked variation carries a `safety_ethics` score card with
score strictly below 0.3, `_determine_strategy` returns `reject`, whatever
the overall score, the other dimension scores and the media type are. -/
theorem safety_floor_forces_reject (cf : CritiqueFeedback) (media_type : String)
    (v : VariationResult) (vs : List VariationResult)
    (hv : cf.all_variations = v :: vs)
    (d : ScoreCard) (hd : d ∈ v.scorecard)
    (hdim : d.dimension = "safety_ethics") (hs : d.score < 3/10) :
    determine_strategy cf media_type = RefinementStrategy.reject := by
  have hcrit : has_critical_safety_issues cf = true := by
    simp only [has_critical_safety_issues, hv, List.any_eq_true]
    exact ⟨d, hd, by simp [hdim, hs]⟩
  simp [determine_strategy, hcrit]

/-- Witness for C2: overall score 0.9 with safety score 0.2 is rejected. -/
theorem safety_floor_forces_reject_witness :
    determine_strategy cfSafetyLow "video" = RefinementStrategy.reject :=
  safety_floor_forces_reject cfSafetyLow "video" varSafetyLow [] rfl scSafetyLow
    (by simp [varSafetyLow]) rfl (by norm_num [scSafetyLow])

/-- C10: on an empty variation list the overall-score accessor returns 0, the
safety check reports no critical issue, and the strategy is `reject` for
every media type. -/
theorem empty_critique_rejected (cf : CritiqueFeedback)
    (h : cf.all_variations = []) (media_type : String) :
    get_overall_score cf = 0 ∧ has_critical_safety_issues cf = false ∧
      determine_strategy cf media_type = RefinementStrategy.reject := by
  have h1 : get_overall_score cf = 0 := by simp [get_overall_score, h]
  have h2 : has_critical_safety_issues cf = false := by
    simp [has_critical_safety_issues, h]
  refine ⟨h1, h2, ?_⟩
  simp only [determine_strategy, h1, h2]
  norm_num

/-- Witness for C10 at the concrete empty feedback. -/
theorem empty_critique_rejected_witness :
    get_overall_score cfEmptyFeedback = 0 ∧
    has_critical_safety_issues cfEmptyFeedback = false ∧
    determine_strategy cfEmptyFeedback "image" = RefinementStrategy.reject :=
  empty_critique_rejected cfEmptyFeedback rfl "image"

/-- C3 counterexample: in the mid band with an image, the single flagged
feedback text `"weird framing"` matches neither the simple nor the complex
keyword set, yet `_determine_strategy` returns `enhance` (the claim requires
`regenerate` for an issue matching neither set): the simple keyword list is
never consulted by `_has_only_simple_issues`. -/
theorem midband_neither_keyword_enhances :
    determine_strategy cfNeitherKeyword "image" = RefinementStrategy.enhance ∧
    simple_issue_keywords.all
      (fun kw => !strContains (strLower "weird framing") kw) = true ∧
    complex_issue_keywords.all
      (fun kw => !strContains (strLower "weird framing") kw) = true := by
  have hsafe : has_critical_safety_issues cfNeitherKeyword = false := by decide
  have hsimple : has_only_simple_issues cfNeitherKeyword = true := by decide
  have hscore : get_overall_score cfNeitherKeyword = 1/2 := rfl
  refine ⟨?_, by decide, by decide⟩
  simp only [determine_strategy, hsafe, hscore]
  norm_num [hsimple]

/-- Characterisation of `_has_only_simple_issues`: with a nonempty variation
list it holds exactly when no score card scoring below 0.7 mentions a complex
keyword. -/
theorem has_only_simple_issues_iff (cf : CritiqueFeedback) (v : VariationResult)
    (vs : List VariationResult) (hv : cf.all_variations = v :: vs) :
    has_only_simple_issues cf = true ↔
      ∀ d ∈ v.scorecard, d.score < 7/10 → mentionsComplex d = false := by
  simp only [has_only_simple_issues, hv, List.all_eq_true]
  refine forall₂_congr (fun d hd => ?_)
  by_cases hp : d.score < (7:ℚ)/10 <;>
    simp [mentionsComplex, hp, Bool.or_eq_false_iff]

/-- C3 amended: in the mid band (0.3 <= overall < 0.7, no critical safety
issue) the strategy is `enhance` exactly when the media type is image and no
score card with score below 0.7 mentions a complex keyword (brand, logo,
color, message, product, safety, stereotype) in its lowercased dimension name
or lowercased feedback joined with its issues; in every other case it is
`regenerate`.  The simple keyword set plays no role. -/
theorem midband_enhance_iff_no_complex_issue (cf : CritiqueFeedback)
    (media_type : String) (v : VariationResult) (vs : List VariationResult)
    (hv : cf.all_variations = v :: vs)
    (hlo : (3:ℚ)/10 ≤ get_overall_score cf)
    (hhi : get_overall_score cf < 7/10)
    (hsafe : has_critical_safety_issues cf = false) :
    (determine_strategy cf media_type = RefinementStrategy.enhance ↔
      (media_type = "image" ∧
        ∀ d ∈ v.scorecard, d.score < 7/10 → mentionsComplex d = false)) ∧
    (determine_strategy cf media_type = RefinementStrategy.enhance ∨
      determine_strategy cf media_type = RefinementStrategy.regenerate) := by
  have hmid1 : ¬ (get_overall_score cf < 3/10) := not_lt.mpr hlo
  have hmid2 : ¬ ((7:ℚ)/10 ≤ get_overall_score cf) := not_le.mpr hhi
  have hds : determine_strategy cf media_type =
      if (media_type = "image" && has_only_simple_issues cf) = true then
        RefinementStrategy.enhance
      else RefinementStrategy.regenerate := by
    simp only [determine_strategy, hsafe]
    rw [if_neg (by simp), if_neg hmid1, if_neg hmid2]
  by_cases hcond : (media_type = "image" && has_only_simple_issues cf) = true
  · have he : determine_strategy cf media_type = RefinementStrategy.enhance := by
      rw [hds, if_pos hcond]
    obtain ⟨hm, hosi⟩ := Bool.and_eq_true_iff.mp hcond
    refine ⟨⟨fun _ => ⟨of_decide_eq_true hm, (has_only_simple_issues_iff cf v vs hv).mp hosi⟩,
      fun _ => he⟩, Or.inl he⟩
  · have hr : determine_strategy cf media_type = RefinementStrategy.regenerate := by
      rw [hds, if_neg hcond]
    refine ⟨⟨fun he => absurd (he.symm.trans hr) (by decide), fun hrhs => ?_⟩, Or.inr hr⟩
    exact absurd (Bool.and_eq_true_iff.mpr
      ⟨decide_eq_true hrhs.1, (has_only_simple_issues_iff cf v vs hv).mpr hrhs.2⟩) hcond

/-- Witness for the amended C3 at the concrete mid-band image feedback. -/
theorem midband_enhance_iff_no_complex_issue_witness :
    (determine_strategy cfNeitherKeyword "image" = RefinementStrategy.enhance ↔
      ("image" = "image" ∧
        ∀ d ∈ varNeitherKeyword.scorecard,
          d.score < 7/10 → mentionsComplex d = false)) ∧
    (determine_strategy cfNeitherKeyword "image" = RefinementStrategy.enhance ∨
      determine_strategy cfNeitherKeyword "image" = RefinementStrategy.regenerate) :=
  midband_enhance_iff_no_complex_issue cfNeitherKeyword "image" varNeitherKeyword []
    rfl (by norm_num [show get_overall_score cfNeitherKeyword = 1/2 from rfl])
    (by norm_num [show get_overall_score cfNeitherKeyword = 1/2 from rfl])
    (by decide)

/-- A regenerate cycle sets the strategy and increments the retry count. -/
theorem regenCycle_eq (st : WorkflowState) :
    regenCycle st = { st with refinement_strategy := some "regenerate"
                            , retry_count := st.retry_count + 1 } := by
  simp [regenCycle, applyRegenerateIncrement]

/-- Field bookkeeping along regenerate cycles: `max_retries` is untouched, the
retry count grows by one per cycle, and after any cycle the recorded strategy
is `"regenerate"`. -/
theorem afterRegenCycles_fields (st : WorkflowState) (n : Nat) :
    (afterRegenCycles st n).max_retries = st.max_retries ∧
    (afterRegenCycles st n).retry_count = st.retry_count + n ∧
    (0 < n → (afterRegenCycles st n).refinement_strategy = some "regenerate") := by
  induction n with
  | zero => exact ⟨rfl, rfl, fun h => absurd h (by decide)⟩
  | succ n ih =>
      obtain ⟨h1, h2, _⟩ := ih
      refine ⟨?_, ?_, fun _ => ?_⟩ <;>
        simp [afterRegenCycles, regenCycle_eq, h1, h2, Nat.add_assoc]

/-- `should_continue` on a state whose strategy is `"regenerate"` routes by
comparing the retry count with the budget. -/
theorem should_continue_regenerate_state (st : WorkflowState)
    (h : st.refinement_strategy = some "regenerate") :
    should_continue st =
      if st.max_retries ≤ st.retry_count then Route.endRoute
      else Route.regenerate := by
  simp only [should_continue, h]
  rw [if_neg (by decide), if_neg (by decide), if_pos trivial]

/-- `execute`'s final-status logic on an exhausted regenerate state. -/
theorem finalizeStatus_exhausted (st : WorkflowState)
    (hstrat : st.refinement_strategy = some "regenerate")
    (hrc : st.max_retries ≤ st.retry_count) :
    (finalizeStatus st).workflow_status = "failed" ∧
    (finalizeStatus st).error_message = some "Maximum retries reached" := by
  simp only [finalizeStatus, hstrat]
  rw [if_neg (by decide), if_neg (by decide), if_pos hrc]
  exact ⟨rfl, rfl⟩

/-- C1: starting from retry count 0, every regenerate cycle increments the
retry count by exactly one; while the count is still below `max_retries` the
router loops back (`regenerate`), and after exactly `max_retries` cycles the
next regenerate routing decision returns `end`, upon which the final status is
`failed` with message `"Maximum retries reached"`. -/
theorem regenerate_retry_budget (st : WorkflowState) (h0 : st.retry_count = 0) :
    (∀ n, (afterRegenCycles st (n + 1)).retry_count
        = (afterRegenCycles st n).retry_count + 1) ∧
    (∀ n, (afterRegenCycles st n).retry_count = n) ∧
    (∀ n, n + 1 < st.max_retries →
        should_continue (afterRegenCycles st (n + 1)) = Route.regenerate) ∧
    (0 < st.max_retries →
        should_continue (afterRegenCycles st st.max_retries) = Route.endRoute ∧
        (finalizeStatus (afterRegenCycles st st.max_retries)).workflow_status
          = "failed" ∧
        (finalizeStatus (afterRegenCycles st st.max_retries)).error_message
          = some "Maximum retries reached") := by
  have hcount : ∀ n, (afterRegenCycles st n).retry_count = n := by
    intro n
    rw [(afterRegenCycles_fields st n).2.1, h0, Nat.zero_add]
  have hmax : ∀ n, (afterRegenCycles st n).max_retries = st.max_retries :=
    fun n => (afterRegenCycles_fields st n).1
  have hstrat : ∀ n, 0 < n →
      (afterRegenCycles st n).refinement_strategy = some "regenerate" :=
    fun n => (afterRegenCycles_fields st n).2.2
  refine ⟨fun n => by rw [hcount, hcount], hcount, fun n hn => ?_, fun hm => ?_⟩
  · rw [should_continue_regenerate_state _ (hstrat (n + 1) (Nat.succ_pos n)),
      hmax, hcount, if_neg (Nat.not_le.mpr hn)]
  · have hsc : should_continue (afterRegenCycles st st.max_retries)
        = Route.endRoute := by
      rw [should_continue_regenerate_state _ (hstrat st.max_retries hm),
        hmax, hcount, if_pos (Nat.le_refl _)]
    have hfin := finalizeStatus_exhausted (afterRegenCycles st st.max_retries)
      (hstrat st.max_retries hm) (by rw [hmax, hcount])
    exact ⟨hsc, hfin.1, hfin.2⟩

/-- Witness for C1 at the orchestrator's initial state (`retry_count = 0`,
default `max_retries = 3`). -/
theorem regenerate_retry_budget_witness :
    (afterRegenCycles stInit 1).retry_count = 1 ∧
    (afterRegenCycles stInit 2).retry_count = 2 ∧
    (afterRegenCycles stInit 3).retry_count = 3 ∧
    should_continue (afterRegenCycles stInit 1) = Route.regenerate ∧
    should_continue (afterRegenCycles stInit 2) = Route.regenerate ∧
    should_continue (afterRegenCycles stInit 3) = Route.endRoute ∧
    (finalizeStatus (afterRegenCycles stInit 3)).workflow_status = "failed" ∧
    (finalizeStatus (afterRegenCycles stInit 3)).error_message
      = some "Maximum retries reached" := by
  have h := regenerate_retry_budget stInit rfl
  exact ⟨h.2.1 1, h.2.1 2, h.2.1 3, h.2.2.1 0 (by decide), h.2.2.1 1 (by decide),
    (h.2.2.2 (by decide)).1, (h.2.2.2 (by decide)).2.1, (h.2.2.2 (by decide)).2.2⟩

/-- A lower bound below a right fold by `min` is a bound on the seed and on
every element. -/
theorem le_foldr_min_iff (c x0 : ℚ) (l : List ℚ) :
    c ≤ l.foldr min x0 ↔ (c ≤ x0 ∧ ∀ x ∈ l, c ≤ x) := by
  induction l with
  | nil => simp
  | cons a l ih =>
      simp only [List.foldr_cons, le_min_iff, ih, List.mem_cons]
      constructor
      · rintro ⟨ha, hx0, hl⟩
        exact ⟨hx0, fun x hx => hx.elim (fun h => h ▸ ha) (hl x)⟩
      · rintro ⟨hx0, hl⟩
        exact ⟨hl a (Or.inl rfl), hx0, fun x hx => hl x (Or.inr hx)⟩

/-- `determine_pass_fail` unfolded into its two threshold conditions. -/
theorem determine_pass_fail_eq_true_iff (o a b : ℚ) (l : List (String × ℚ)) :
    determine_pass_fail o l a b = true ↔ (a ≤ o ∧ ∀ p ∈ l, b ≤ p.2) := by
  unfold determine_pass_fail
  by_cases h1 : o < a
  · simp only [if_pos h1, Bool.false_eq_true, false_iff, not_and]
    exact fun hle => absurd h1 (not_lt.mpr hle)
  · rw [if_neg h1]
    by_cases h2 : l.any (fun p => decide (p.2 < b)) = true
    · obtain ⟨p, hp, hpb⟩ := List.any_eq_true.mp h2
      simp only [h2, if_pos, Bool.false_eq_true, false_iff, not_and]
      exact fun _ hall => absurd (of_decide_eq_true hpb) (not_lt.mpr (hall p hp))
    · rw [if_neg h2]
      simp only [true_iff]
      refine ⟨not_lt.mp h1, fun p hp => not_lt.mp fun hpb => h2 ?_⟩
      exact List.any_eq_true.mpr ⟨p, hp, decide_eq_true hpb⟩

/-- C4: with the default thresholds 0.6 and 0.4 and a nonempty dimension map
(written as a head score and a tail), the pass verdict holds exactly when the
overall score is at least 0.6 and the minimum dimension score is at least
0.4; one dimension below 0.4 therefore fails even when the overall score is
acceptable. -/
theorem determine_pass_fail_iff (overall : ℚ) (d0 : String × ℚ)
    (ds : List (String × ℚ)) :
    determine_pass_fail overall (d0 :: ds) (6/10) (4/10) = true ↔
      ((6:ℚ)/10 ≤ overall ∧
        (4:ℚ)/10 ≤ (ds.map Prod.snd).foldr min d0.2) := by
  rw [determine_pass_fail_eq_true_iff, le_foldr_min_iff]
  simp only [List.forall_mem_cons, List.forall_mem_map]

/-- Looking up a present key in an association list whose values are all `c`
yields `c`. -/
theorem dictGet_map_const (l : List (String × ℚ)) (c d : ℚ) (k : String)
    (hk : k ∈ l.map Prod.fst) :
    dictGet (l.map (fun p => (p.1, c))) k d = c := by
  induction l with
  | nil => simp at hk
  | cons q l ih =>
      simp only [List.map_cons, dictGet]
      by_cases hq : q.1 = k
      · rw [if_pos hq]
      · rw [if_neg hq]
        refine ih ?_
        rw [List.map_cons] at hk
        rcases List.mem_cons.mp hk with h | h
        · exact absurd h.symm hq
        · exact h

/-- A mapped sum all of whose terms agree with a constant. -/
theorem sum_map_eq_length_mul {α : Type} (l : List α) (f : α → ℚ) (c : ℚ)
    (h : ∀ a ∈ l, f a = c) : (l.map f).sum = (l.length : ℚ) * c := by
  induction l with
  | nil => simp
  | cons a l ih =>
      rw [List.map_cons, List.sum_cons, h a (List.mem_cons_self a l),
        ih (fun x hx => h x (List.mem_cons_of_mem _ hx)), List.length_cons]
      push_cast
      ring

/-- C5: with no supplied weights, `calculate_overall_score` on a nonempty
dimension map is the unweighted arithmetic mean of the scores clamped to
[0,1]. -/
theorem overall_score_unweighted_mean (dims : List (String × ℚ))
    (h : dims ≠ []) :
    calculate_overall_score dims none =
      max 0 (min 1 ((dims.map Prod.snd).sum / (dims.length : ℚ))) := by
  have hlen : (0:ℚ) < (dims.length : ℚ) := by
    exact_mod_cast List.length_pos.mpr h
  have hn : (dims.length : ℚ) ≠ 0 := ne_of_gt hlen
  have hget : ∀ d0 : ℚ, ∀ p ∈ dims,
      dictGet (dims.map (fun q => (q.1, 1 / (dims.length : ℚ)))) p.1 d0
        = 1 / (dims.length : ℚ) := by
    intro d0 p hp
    exact dictGet_map_const dims _ d0 p.1 (List.mem_map_of_mem Prod.fst hp)
  have htw : (dims.map (fun p =>
      dictGet (dims.map (fun q => (q.1, 1 / (dims.length : ℚ)))) p.1 0)).sum = 1 := by
    rw [sum_map_eq_length_mul dims _ (1 / (dims.length : ℚ)) (hget 0)]
    field_simp
  have hws : (dims.map (fun p => p.2 *
      dictGet (dims.map (fun q => (q.1, 1 / (dims.length : ℚ)))) p.1
        (1 / (dims.length : ℚ)))).sum
      = (dims.map Prod.snd).sum / (dims.length : ℚ) := by
    rw [List.map_congr_left
      (fun p hp => by rw [hget (1 / (dims.length : ℚ)) p hp])]
    rw [List.sum_map_mul_right, mul_one_div]
  simp only [calculate_overall_score, if_neg h]
  rw [htw, if_neg one_ne_zero, if_neg one_ne_zero, if_pos one_pos, hws, div_one]

/-- Witness for C5: the mean of scores 0.5 and 1 is 0.75. -/
theorem overall_score_unweighted_mean_witness :
    calculate_overall_score
        [("brand_alignment", (1:ℚ)/2), ("visual_quality", 1)] none =
      max 0 (min 1
        (([("brand_alignment", (1:ℚ)/2), ("visual_quality", 1)].map
            Prod.snd).sum / 2)) :=
  overall_score_unweighted_mean
    [("brand_alignment", (1:ℚ)/2), ("visual_quality", 1)] (by simp)

/-- C6 (code bug): when the supplied weights sum to zero over the present
dimensions, the fallback re-normalises twice, so two scores of 1.0 with
zero weights produce 0.5 although the unweighted mean (the value with no
weights supplied) is 1. -/
theorem zero_weight_sum_halves_mean :
    calculate_overall_score [("a", 1), ("b", 1)] (some [("a", 0), ("b", 0)])
        = 1/2 ∧
    calculate_overall_score [("a", 1), ("b", 1)] none = 1 ∧
    ((1:ℚ)/2 ≠ 1) := by
  refine ⟨?_, ?_, by norm_num⟩
  · norm_num [calculate_overall_score, dictGet]
    exact List.cons_ne_nil _ _
  · norm_num [calculate_overall_score, dictGet]
    exact List.cons_ne_nil _ _

/-- C7 counterexample: the score card substituted for a raising evaluator has
score 0.0, not the mid-range 0.5 stated by the claim. -/
theorem evaluator_failure_score_not_half :
    (evaluatorResult "safety" (Except.error "vision analyzer crashed")).score = 0 ∧
    (evaluatorResult "safety" (Except.error "vision analyzer crashed")).score ≠ 1/2 := by
  have h : (evaluatorResult "safety" (Except.error "vision analyzer crashed")).score
      = 0 := by
    norm_num [evaluatorResult, create_result]
  exact ⟨h, by rw [h]; norm_num⟩

/-- C7 amended: the fan-out always returns an entry for each of the four
dimensions, and an evaluator whose body raises contributes a substituted
result with score 0.0 and feedback/issues flagging the error, so a single
failure never aborts the critique. -/
theorem evaluator_failure_isolated (b q c s : Except String EvalResult) :
    ((evaluateDimensions b q c s).map Prod.fst =
      ["brand_alignment", "visual_quality", "message_clarity", "safety_ethics"]) ∧
    (∀ e, b = Except.error e →
      (evaluatorResult "brand" b).score = 0 ∧
      (evaluatorResult "brand" b).feedback = "Error during brand evaluation: " ++ e ∧
      (evaluatorResult "brand" b).issues = ["Evaluation error: " ++ e]) ∧
    (∀ e, q = Except.error e →
      (evaluatorResult "quality" q).score = 0 ∧
      (evaluatorResult "quality" q).feedback = "Error during quality evaluation: " ++ e ∧
      (evaluatorResult "quality" q).issues = ["Evaluation error: " ++ e]) ∧
    (∀ e, c = Except.error e →
      (evaluatorResult "clarity" c).score = 0 ∧
      (evaluatorResult "clarity" c).feedback = "Error during clarity evaluation: " ++ e ∧
      (evaluatorResult "clarity" c).issues = ["Evaluation error: " ++ e]) ∧
    (∀ e, s = Except.error e →
      (evaluatorResult "safety" s).score = 0 ∧
      (evaluatorResult "safety" s).feedback = "Error during safety evaluation: " ++ e ∧
      (evaluatorResult "safety" s).issues = ["Evaluation error: " ++ e]) := by
  refine ⟨rfl, ?_, ?_, ?_, ?_⟩ <;>
  · rintro e rfl
    refine ⟨by norm_num [evaluatorResult, create_result], rfl, rfl⟩

/-- Witness for the amended C7: three healthy evaluators and one raising
safety evaluator still produce the full dimension list, with the failed
dimension defaulted to score 0. -/
theorem evaluator_failure_isolated_witness :
    ((evaluateDimensions (Except.ok evalOk) (Except.ok evalOk) (Except.ok evalOk)
        (Except.error "boom")).map Prod.fst =
      ["brand_alignment", "visual_quality", "message_clarity", "safety_ethics"]) ∧
    ((evaluatorResult "safety" (Except.error "boom")).score = 0 ∧
     (evaluatorResult "safety" (Except.error "boom")).feedback
        = "Error during safety evaluation: " ++ "boom" ∧
     (evaluatorResult "safety" (Except.error "boom")).issues
        = ["Evaluation error: " ++ "boom"]) :=
  ⟨(evaluator_failure_isolated (Except.ok evalOk) (Except.ok evalOk)
      (Except.ok evalOk) (Except.error "boom")).1,
   (evaluator_failure_isolated (Except.ok evalOk) (Except.ok evalOk)
      (Except.ok evalOk) (Except.error "boom")).2.2.2.2 "boom" rfl⟩

/-- Insertion preserves length. -/
theorem length_insertDesc (v : VariationResult) (l : List VariationResult) :
    (insertDesc v l).length = l.length + 1 := by
  induction l with
  | nil => rfl
  | cons w ws ih =>
      by_cases h : w.overall_score ≤ v.overall_score <;>
        simp [insertDesc, h, ih]

/-- Sorting preserves length. -/
theorem length_sortDesc (l : List VariationResult) :
    (sortDesc l).length = l.length := by
  induction l with
  | nil => rfl
  | cons v vs ih => simp [sortDesc, length_insertDesc, ih]

/-- Membership in an insertion. -/
theorem mem_insertDesc (x v : VariationResult) (l : List VariationResult) :
    x ∈ insertDesc v l ↔ x = v ∨ x ∈ l := by
  induction l with
  | nil => simp [insertDesc]
  | cons w ws ih =>
      by_cases h : w.overall_score ≤ v.overall_score
      · simp [insertDesc, h]
      · simp [insertDesc, h, ih]
        tauto

/-- Insertion into a descending-sorted list keeps it descending-sorted. -/
theorem sorted_insertDesc (v : VariationResult) (l : List VariationResult)
    (h : l.Pairwise (fun a b => b.overall_score ≤ a.overall_score)) :
    (insertDesc v l).Pairwise (fun a b => b.overall_score ≤ a.overall_score) := by
  induction l with
  | nil => simp [insertDesc]
  | cons w ws ih =>
      rcases List.pairwise_cons.mp h with ⟨hw, hws⟩
      by_cases hc : w.overall_score ≤ v.overall_score
      · rw [insertDesc, if_pos hc]
        refine List.pairwise_cons.mpr ⟨?_, h⟩
        intro b hb
        rcases List.mem_cons.mp hb with hb | hb
        · exact hb ▸ hc
        · exact le_trans (hw b hb) hc
      · rw [insertDesc, if_neg hc]
        refine List.pairwise_cons.mpr ⟨?_, ih hws⟩
        intro b hb
        rcases (mem_insertDesc b v ws).mp hb with hb | hb
        · exact hb ▸ le_of_lt (not_le.mp hc)
        · exact hw b hb

/-- The sort is descending-sorted. -/
theorem sorted_sortDesc (l : List VariationResult) :
    (sortDesc l).Pairwise (fun a b => b.overall_score ≤ a.overall_score) := by
  induction l with
  | nil => simp [sortDesc]
  | cons v vs ih => exact sorted_insertDesc v (sortDesc vs) ih

/-- Stability of one insertion: restricted to any single score value, the
insertion just prepends the new element (when it has that score) or leaves
the restriction unchanged. -/
theorem filter_insertDesc (s : ℚ) (v : VariationResult) (l : List VariationResult) :
    (insertDesc v l).filter (fun x => decide (x.overall_score = s)) =
      if v.overall_score = s then
        v :: l.filter (fun x => decide (x.overall_score = s))
      else l.filter (fun x => decide (x.overall_score = s)) := by
  induction l with
  | nil =>
      by_cases hv : v.overall_score = s <;>
        simp [insertDesc, List.filter, hv]
  | cons w ws ih =>
      by_cases hc : w.overall_score ≤ v.overall_score
      · rw [insertDesc, if_pos hc]
        by_cases hv : v.overall_score = s <;>
          simp [List.filter_cons, hv]
      · rw [insertDesc, if_neg hc]
        have hvw : v.overall_score < w.overall_score := not_le.mp hc
        by_cases hv : v.overall_score = s
        · have hw : ¬ w.overall_score = s := by
            rw [← hv]
            exact ne_of_gt hvw
          simp [List.filter_cons, hv, hw, ih]
        · by_cases hw : w.overall_score = s <;>
            simp [List.filter_cons, hv, hw, ih]

/-- Stability of the sort: restricted to any single score value, the sorted
list equals the input, so equal-score elements keep their relative order. -/
theorem filter_sortDesc (s : ℚ) (l : List VariationResult) :
    (sortDesc l).filter (fun x => decide (x.overall_score = s)) =
      l.filter (fun x => decide (x.overall_score = s)) := by
  induction l with
  | nil => rfl
  | cons v vs ih =>
      rw [sortDesc, filter_insertDesc, ih, List.filter_cons]
      by_cases hv : v.overall_score = s <;> simp [hv]

/-- Rank assignment only rewrites the `rank` field. -/
theorem rank_variations_map_clearRank (l : List VariationResult) :
    (rank_variations l).map clearRank = (sortDesc l).map clearRank := by
  unfold rank_variations
  rw [List.map_map]
  have h1 : (clearRank ∘ fun p : Nat × VariationResult =>
      { p.2 with rank := some (p.1 + 1) }) = (clearRank ∘ Prod.snd) := rfl
  rw [h1, ← List.map_map, List.enum_map_snd]

/-- C8: `rank_variations` (i) assigns the rank sequence `1..N` positionally,
(ii) orders the output by `overall_score` descending, and (iii) is stable:
restricted to any score value (so in particular to any class of equal-score
variations, up to the rewritten `rank` field) the output lists the input's
elements in their original order. -/
theorem rank_variations_spec (l : List VariationResult) :
    ((rank_variations l).map (fun v => v.rank) =
      (List.range l.length).map (fun i => some (i + 1))) ∧
    ((rank_variations l).Pairwise
      (fun a b => b.overall_score ≤ a.overall_score)) ∧
    (∀ s : ℚ,
      ((rank_variations l).map clearRank).filter
          (fun v => decide (v.overall_score = s)) =
        (l.map clearRank).filter (fun v => decide (v.overall_score = s))) := by
  refine ⟨?_, ?_, ?_⟩
  · unfold rank_variations
    rw [List.map_map]
    have h1 : ((fun v : VariationResult => v.rank) ∘
        fun p : Nat × VariationResult => { p.2 with rank := some (p.1 + 1) })
        = ((fun i : Nat => some (i + 1)) ∘ Prod.fst) := rfl
    rw [h1, ← List.map_map, List.enum_map_fst, length_sortDesc]
  · have hs := sorted_sortDesc l
    rw [← List.enum_map_snd (sortDesc l), List.pairwise_map] at hs
    unfold rank_variations
    rw [List.pairwise_map]
    exact hs
  · intro s
    have hcomp : ((fun v : VariationResult => decide (v.overall_score = s))
        ∘ clearRank) = (fun v : VariationResult => decide (v.overall_score = s)) :=
      rfl
    rw [rank_variations_map_clearRank, List.filter_map, hcomp, filter_sortDesc,
      List.filter_map, hcomp]

/-- C9: the critique report counts satisfy `passed + failed = total`, and the
best variation, when present, is the top-ranked one (rank 1). -/
theorem critique_report_invariant (rid : String)
    (results : List VariationResult) :
    ((makeCritiqueReport rid results).passed_variations +
      (makeCritiqueReport rid results).failed_variations =
      (makeCritiqueReport rid results).total_variations) ∧
    (∀ b, (makeCritiqueReport rid results).best_variation = some b →
      b.rank = some 1) := by
  constructor
  · exact Nat.add_sub_cancel' (List.length_filter_le _ results)
  · intro b hb
    have hb2 : (rank_variations results).head? = some b := hb
    unfold rank_variations at hb2
    cases hsd : sortDesc results with
    | nil => rw [hsd] at hb2; simp at hb2
    | cons w ws =>
        rw [hsd] at hb2
        simp only [List.enum, List.enumFrom, List.map_cons, List.head?_cons,
          Option.some.injEq] at hb2
        rw [← hb2]

/-- Witness for C9 on a singleton list of variations. -/
theorem critique_report_invariant_witness :
    ((makeCritiqueReport "run" [varPassed]).passed_variations +
      (makeCritiqueReport "run" [varPassed]).failed_variations =
      (makeCritiqueReport "run" [varPassed]).total_variations) ∧
    ({ varPassed with rank := some 1 } : VariationResult).rank = some 1 :=
  ⟨(critique_report_invariant "run" [varPassed]).1,
   (critique_report_invariant "run" [varPassed]).2
     { varPassed with rank := some 1 } rfl⟩
